import Mathlib

/-!
# Verification of the searoutes weighting and antimeridian-geometry layer

A shallow embedding of the core of the `searoutes` repository:

* `src/utils/geo.js` — haversine distance, GeoJSON triplication,
  path unwrapping and coordinate-pair normalization;
* `src/utils/profiles.js` — passage-rule evaluation and the
  weight-function factory;
* `src/core/CoordinateLookup.js` — coordinate extraction and
  vertex snapping;
* `src/SeaRoutes.js` — `getShortestPath` result shaping.

Conventions of the embedding:

* JavaScript numbers are modelled as `ℚ` wherever the code only uses
  field operations, truncation and comparisons (so every definition is
  executable), and as `ℝ` where transcendental functions occur
  (`haversine`).  A coordinate is a `lon × lat` pair.
* JavaScript `Set` objects are modelled as duplicate-free lists in
  insertion order (`setAdd` appends a missing element, like `Set.add`).
* Fallible operations return `Option`; a thrown `Error` is
  `Except.error` with the thrown message.
* External collaborators (the graph-search engine `findPath`, the
  antimeridian splitter `splitGeoJSON`, the `flatbush` `neighbors`
  query) are parameters of the embedded functions, constrained only by
  their interface types, exactly as the code receives them.
-/

/-! ## Numeric helpers: JS `Math.trunc`, `%`, `Math.round` on `ℚ` -/

/-- JS `Math.trunc` on rationals: round toward zero. -/
def truncQ (q : ℚ) : ℚ := if 0 ≤ q then (⌊q⌋ : ℤ) else (⌈q⌉ : ℤ)

/-- JS remainder `a % n` (sign of the dividend): `a - n * trunc (a / n)`.
Matches IEEE `fmod` for finite arguments and nonzero `n`. -/
def jsMod (a n : ℚ) : ℚ := a - n * truncQ (a / n)

/-- JS `Math.round`: round half toward positive infinity. -/
def jsRound (q : ℚ) : ℚ := (⌊q + 1/2⌋ : ℤ)

/-! ## `src/utils/geo.js` — coordinate layer over `ℚ` -/

/-- `shiftLon(coord, dx)` from geo.js: `[coord[0] + dx, coord[1]]`. -/
def shiftLon (c : ℚ × ℚ) (dx : ℚ) : ℚ × ℚ := (c.1 + dx, c.2)

/-- `unwrapPath(path)` from geo.js: per point,
`x = ((lon + 180) % 360) - 180` with the JS remainder, latitude kept. -/
def unwrapPath (path : List (ℚ × ℚ)) : List (ℚ × ℚ) :=
  path.map fun c => (jsMod (c.1 + 180) 360 - 180, c.2)

/-- `normalizePair(a, b)` from geo.js: when `|lonA - lonB| > 180` the
point with the smaller longitude is shifted east by `360`. -/
def normalizePair (a b : ℚ × ℚ) : (ℚ × ℚ) × (ℚ × ℚ) :=
  if |a.1 - b.1| > 180 then
    if a.1 < b.1 then ((a.1 + 360, a.2), (b.1, b.2))
    else ((a.1, a.2), (b.1 + 360, b.2))
  else ((a.1, a.2), (b.1, b.2))

/-- A GeoJSON coordinate array element, as probed by `mapCoords` in
`shiftGeometry`: either a coordinate pair (JS: `Array.isArray(c[0])` is
false) or a nested nonempty coordinate array (JS: `c[0]` is an array).
Geometries of every nesting depth (LineString, Polygon, MultiPolygon,
...) are lists of such elements. -/
inductive CoordTree where
  | leaf (lon lat : ℚ)
  | node (children : List CoordTree)

mutual

/-- One element of `mapCoords` from `shiftGeometry` (geo.js): shift a
coordinate pair, or recurse into a nested array. -/
def shiftTree (dx : ℚ) : CoordTree → CoordTree
  | .leaf lon lat => .leaf (lon + dx) lat
  | .node cs => .node (shiftTreeList dx cs)

/-- `mapCoords` from `shiftGeometry` (geo.js), mapped over an array. -/
def shiftTreeList (dx : ℚ) : List CoordTree → List CoordTree
  | [] => []
  | c :: cs => shiftTree dx c :: shiftTreeList dx cs

end

mutual

/-- All coordinate pairs occurring in a coordinate-array element. -/
def leavesOf : CoordTree → List (ℚ × ℚ)
  | .leaf lon lat => [(lon, lat)]
  | .node cs => leavesList cs

/-- All coordinate pairs occurring in a coordinate array, in order
(as `@turf/meta`'s `coordAll` enumerates them). -/
def leavesList : List CoordTree → List (ℚ × ℚ)
  | [] => []
  | c :: cs => leavesOf c ++ leavesList cs

end

/-- A GeoJSON geometry: a type tag and a coordinate array. -/
structure Geometry where
  gtype : String
  coordinates : List CoordTree

/-- A GeoJSON feature.  Properties are modelled extensionally as a
partial map from keys to (numeric) values; the only property the core
writes is the numeric `__wrapShift` tag. -/
structure Feature where
  properties : String → Option ℚ
  geometry : Geometry

/-- A GeoJSON feature collection. -/
structure FeatureCollection where
  features : List Feature

/-- `shiftGeometry(geom, dx)` from geo.js: same type, all coordinates
shifted by `dx` in longitude at every nesting depth. -/
def shiftGeometry (g : Geometry) (dx : ℚ) : Geometry :=
  { gtype := g.gtype, coordinates := shiftTreeList dx g.coordinates }

/-- The three longitude shifts of `triplicateGeoJSON`. -/
def shifts : List ℚ := [-360, 0, 360]

/-- `{ ...feature.properties, __wrapShift: dx }`: the spread copies the
original properties and then sets (or overwrites) `__wrapShift`. -/
def tagShift (props : String → Option ℚ) (dx : ℚ) : String → Option ℚ :=
  fun k => if k = "__wrapShift" then some dx else props k

/-- One shifted copy of a feature, as built in the inner loop of
`triplicateGeoJSON` (geo.js lines 143–147). -/
def tripleFeature (f : Feature) (dx : ℚ) : Feature :=
  { properties := tagShift f.properties dx
    geometry := shiftGeometry f.geometry dx }

/-- The feature list built by the two nested loops of
`triplicateGeoJSON`: outer over the original features, inner over the
shifts, writing at index `3*i + j`. -/
def tripleFeatures : List Feature → List Feature
  | [] => []
  | f :: fs => shifts.map (tripleFeature f) ++ tripleFeatures fs

/-- `triplicateGeoJSON(fc)` from geo.js. -/
def triplicateGeoJSON (fc : FeatureCollection) : FeatureCollection :=
  { features := tripleFeatures fc.features }

/-! ## `src/utils/profiles.js` — passage rules and the weight factory -/

/-- The JS values that can sit in `edgeData.fid`, as classified by
`normalizeFid` (profiles.js lines 14–19): absent (`undefined`), `null`,
a finite number (feature ids are integers; a numeric string reaching
the `Number(fid)` branch is classified here as well), or any other
value whose `Number` conversion is not finite. -/
inductive FidVal where
  | missing
  | null
  | num (n : ℤ)
  | nonNumeric
deriving DecidableEq

/-- `normalizeFid(fid)` from profiles.js: a usable integer id, or
`null` for absent / `null` / non-finite values. -/
def normalizeFid : FidVal → Option ℤ
  | .missing => none
  | .null => none
  | .num n => some n
  | .nonNumeric => none

/-- The `edgeData` argument of a weight function; only `fid` is read. -/
structure EdgeData where
  fid : FidVal
deriving DecidableEq

/-- Association-list lookup, modelling JS object property access
`m[k]` (`undefined` when the key is absent). -/
def lookupAssoc {α : Type} (m : List (String × α)) (k : String) : Option α :=
  (m.find? fun p => p.1 = k).map fun p => p.2

/-- A passage entry of the maritime configuration: an optional
per-class status map (`p.status` may be absent) and an optional
feature-id list (`p.feature_ids || []`). -/
structure Passage where
  status : Option (List (String × String))
  feature_ids : Option (List ℤ)

/-- The maritime configuration: passages in declaration order, plus the
default policy. -/
structure MaritimeConfig where
  passages : List (String × Passage)
  default_policy : String

/-- An entry of the effective-status object: resolved per-class status
and the passage's feature ids. -/
structure EffPassage where
  status : List (String × String)
  feature_ids : List ℤ

/-- `(p.status && p.status[clazz]) || cfg.default_policy` from
`computeEffectiveStatusNoOverrides`: the per-class status when present
and truthy (a present empty string is falsy in JS), else the default
policy. -/
def effStatusFor (cfg : MaritimeConfig) (p : Passage) (clazz : String) : String :=
  match p.status with
  | none => cfg.default_policy
  | some m =>
    match lookupAssoc m clazz with
    | none => cfg.default_policy
    | some s => if s = "" then cfg.default_policy else s

/-- `computeEffectiveStatusNoOverrides(cfg, classes)` from profiles.js:
for every passage, the per-class effective status map and the passage's
feature ids. -/
def computeEffectiveStatusNoOverrides (cfg : MaritimeConfig) (classes : List String) :
    List (String × EffPassage) :=
  cfg.passages.map fun pp =>
    (pp.1,
     { status := classes.map fun c => (c, effStatusFor cfg pp.2 c)
       feature_ids := pp.2.feature_ids.getD [] })

/-- The forbidden/restricted id sets of one vessel class.  JS `Set`s
are modelled as duplicate-free lists in insertion order. -/
structure ClassRule where
  forbidden : List ℤ
  restricted : List ℤ
deriving DecidableEq

/-- JS `Set.prototype.add`: append the element when it is new. -/
def setAdd (s : List ℤ) (i : ℤ) : List ℤ := if i ∈ s then s else s ++ [i]

/-- `ids.forEach((id) => set.add(id))` from `collectClassEdgeRules`. -/
def addIds (s : List ℤ) (ids : List ℤ) : List ℤ := ids.foldl setAdd s

/-- The body of the passage loop of `collectClassEdgeRules`
(profiles.js lines 58–68) for one class: skip passages without feature
ids, then add the ids to the set selected by the class's effective
status (`allowed` or any other status adds nothing). -/
def applyPassage (clazz : String) (r : ClassRule) (pe : EffPassage) : ClassRule :=
  if pe.feature_ids.length = 0 then r
  else
    match lookupAssoc pe.status clazz with
    | none => r
    | some s =>
      if s = "forbidden" then { r with forbidden := addIds r.forbidden pe.feature_ids }
      else if s = "restricted" then { r with restricted := addIds r.restricted pe.feature_ids }
      else r

/-- The rule sets accumulated for one class by `collectClassEdgeRules`.
The JS code iterates passages in the outer loop and classes in the
inner loop, mutating `rules[clazz]`; since the updates of distinct
classes never interact, `rules[clazz]` equals this per-class fold over
the passages in declaration order. -/
def classRuleFor (effective : List (String × EffPassage)) (clazz : String) : ClassRule :=
  effective.foldl (fun r pe => applyPassage clazz r pe.2) ⟨[], []⟩

/-- `collectClassEdgeRules(effective, classes)` from profiles.js: an
object with exactly one `{forbidden, restricted}` entry per class. -/
def collectClassEdgeRules (effective : List (String × EffPassage)) (classes : List String) :
    List (String × ClassRule) :=
  classes.map fun c => (c, classRuleFor effective c)

/-! ## Real-valued layer: haversine distance and the weight factory -/

/-- Earth radius in meters (geo.js `R_EARTH`). -/
def R_EARTH : ℝ := 6371000

/-- Degrees-to-radians factor (geo.js `DEG_TO_RAD`). -/
noncomputable def DEG_TO_RAD : ℝ := Real.pi / 180

/-- The haversine intermediate
`s = sin²(dφ/2) + cos φ₁ · cos φ₂ · sin²(dλ/2)` (geo.js line 84). -/
noncomputable def haversineS (a b : ℝ × ℝ) : ℝ :=
  Real.sin ((b.2 - a.2) * DEG_TO_RAD * 0.5) * Real.sin ((b.2 - a.2) * DEG_TO_RAD * 0.5) +
    Real.cos (a.2 * DEG_TO_RAD) * Real.cos (b.2 * DEG_TO_RAD) *
      (Real.sin ((b.1 - a.1) * DEG_TO_RAD * 0.5) * Real.sin ((b.1 - a.1) * DEG_TO_RAD * 0.5))

/-- `haversine(a, b)` from geo.js: `2 * R_EARTH * asin (sqrt s)`. -/
noncomputable def haversine (a b : ℝ × ℝ) : ℝ :=
  2 * R_EARTH * Real.arcsin (Real.sqrt (haversineS a b))

/-- JS `Math.trunc` on reals: round toward zero. -/
noncomputable def truncR (x : ℝ) : ℝ := if 0 ≤ x then (⌊x⌋ : ℤ) else (⌈x⌉ : ℤ)

/-- `makeWeightFn(clazz, rules, restrictedMultiplier, weightFn)` from
profiles.js.  The destructuring `const {forbidden, restricted} =
rules[clazz]` throws when the class is unknown, hence the `Option`
result.  The produced closure truncates the base weight, normalizes
the edge's feature id, and returns `+∞` (`⊤`) for a forbidden id, the
multiplied base for a restricted id, and the base otherwise. -/
noncomputable def makeWeightFn (clazz : String) (rules : List (String × ClassRule))
    (restrictedMultiplier : ℝ) (weightFn : ℝ × ℝ → ℝ × ℝ → ℝ) :
    Option (ℝ × ℝ → ℝ × ℝ → EdgeData → WithTop ℝ) :=
  (lookupAssoc rules clazz).map fun r => fun a b ed =>
    let base := truncR (weightFn a b)
    match normalizeFid ed.fid with
    | some fid =>
      if fid ∈ r.forbidden then ⊤
      else if fid ∈ r.restricted then ((base * restrictedMultiplier : ℝ) : WithTop ℝ)
      else (base : WithTop ℝ)
    | none => (base : WithTop ℝ)

/-! ## `src/core/CoordinateLookup.js` — extraction, build, snap -/

/-- The shapes of values passed to `snapToNearestVertex`, as probed by
`_extractCoordinates`: a nullish value, a plain array of numbers, a
GeoJSON-like object whose `geometry.coordinates` may be present, or
any other object. -/
inductive PointInput where
  | nullish
  | arr (xs : List ℚ)
  | geo (coords : Option (List ℚ))
  | other
deriving DecidableEq

/-- `_extractCoordinates(input)` from CoordinateLookup.js: the first
two entries of a length-≥2 array, either given directly or found at
`input.geometry.coordinates`; `null` otherwise. -/
def extractCoordinates : PointInput → Option (ℚ × ℚ)
  | .nullish => none
  | .arr xs =>
    match xs with
    | x :: y :: _ => some (x, y)
    | _ => none
  | .geo (some cs) =>
    match cs with
    | x :: y :: _ => some (x, y)
    | _ => none
  | .geo none => none
  | .other => none

/-- `coordAll(network)` (from `@turf/meta`, as used by `buildIndex`):
every coordinate of every feature's geometry, duplicates preserved. -/
def coordAll : FeatureCollection → List (ℚ × ℚ)
  | fc => (fc.features.map fun f => leavesList f.geometry.coordinates).flatten

/-- The state of a `CoordinateLookup`: `this.vertices` is `null` until
`buildIndex` has run (the spatial index itself is external and is
modelled by the `neighbors` query parameter of the snap function). -/
structure LookupState where
  vertices : Option (List (ℚ × ℚ))

/-- `buildIndex(network)` from CoordinateLookup.js (run by the
constructor): extract all coordinates; an empty network indexes zero
vertices and leaves the spatial index unbuilt. -/
def buildIndex (fc : FeatureCollection) : LookupState :=
  { vertices := some (coordAll fc) }

/-- `getVertex(vertexIndex)` from CoordinateLookup.js: bounds-checked
vertex access (`neighbors` hands back array indices, so the modelled
index is a natural number). -/
def getVertex (vs : Option (List (ℚ × ℚ))) (i : ℕ) : Option (ℚ × ℚ) :=
  match vs with
  | none => none
  | some l => if h : i < l.length then some (l.get ⟨i, h⟩) else none

/-- The message thrown by `snapToNearestVertex` on an unbuilt or empty
vertex list. -/
def emptyIndexMsg : String := "No spatial index available (empty network)."

/-- `snapToNearestVertex(point)` from CoordinateLookup.js (the version
used by `SeaRoutes`): extraction failure returns `null`; an absent or
empty vertex list throws; otherwise the external 1-nearest-neighbor
query decides the result. -/
def snapToNearestVertex (st : LookupState) (neighbors : ℚ → ℚ → ℕ → List ℕ)
    (input : PointInput) : Except String (Option (ℚ × ℚ)) :=
  match extractCoordinates input with
  | none => .ok none
  | some (lon, lat) =>
    match st.vertices with
    | none => .error emptyIndexMsg
    | some vs =>
      if vs.length = 0 then .error emptyIndexMsg
      else
        match neighbors lon lat 1 with
        | [] => .ok none
        | id :: _ => .ok (getVertex (some vs) id)

/-! ## `src/SeaRoutes.js` — result shaping of `getShortestPath` -/

/-- A result of the external search engine's `findPath`. -/
structure PathResult where
  path : List (ℚ × ℚ)
  weight : ℚ
deriving DecidableEq

/-- The `properties` object built by `getShortestPath`. -/
structure RouteProps where
  profile : String
  weight : ℚ
  distance : ℚ
  distanceNM : ℚ
deriving DecidableEq

/-- The four return shapes of `getShortestPath`: `null`; a Feature
with `null` geometry; a Feature with the MultiPoint `[A, B]`; or the
output of the external `splitGeoJSON` passed through unchanged. -/
inductive RouteOutput (σ : Type) where
  | noPath
  | nullGeometry (props : RouteProps)
  | multiPoint (coords : List (ℚ × ℚ)) (props : RouteProps)
  | splitPath (s : σ)
deriving DecidableEq

/-- `formatPathGeometry(pathCoordinates, properties)` from
SeaRoutes.js: unwrap, return `null` for fewer than two points, else
hand the `LineString` to the external `splitGeoJSON`. -/
def formatPathGeometry {σ : Type} (split : List (ℚ × ℚ) → RouteProps → σ)
    (coords : List (ℚ × ℚ)) (props : RouteProps) : Option σ :=
  let unwrapped := unwrapPath coords
  if unwrapped.length < 2 then none else some (split unwrapped props)

/-- `distanceNM` as computed by `getShortestPath`:
`Math.round(((weight / 1000) * 0.539957) * 100) / 100`. -/
def distanceNMOf (w : ℚ) : ℚ := jsRound (w / 1000 * (539957 / 1000000) * 100) / 100

/-- `getShortestPath(startPoint, endPoint, {path, profile})` from
SeaRoutes.js, with the start/end coordinates already extracted from
their GeoJSON wrappers and the profile's external engine passed as
`findPath`: normalize the pair, query the engine, and shape the
result. -/
def getShortestPath {σ : Type} (findPath : ℚ × ℚ → ℚ × ℚ → Option PathResult)
    (split : List (ℚ × ℚ) → RouteProps → σ) (wantPath : Bool) (profile : String)
    (startC endC : ℚ × ℚ) : RouteOutput σ :=
  let AB := normalizePair startC endC
  match findPath AB.1 AB.2 with
  | none => .noPath
  | some res =>
    let props : RouteProps :=
      { profile := profile
        weight := res.weight
        distance := res.weight / 1000
        distanceNM := distanceNMOf res.weight }
    if wantPath then
      match formatPathGeometry split res.path props with
      | none => .nullGeometry props
      | some s => .splitPath s
    else .multiPoint [AB.1, AB.2] props

/-- Apply an optionally-built weight function to concrete arguments. -/
def applyWeight (owf : Option (ℝ × ℝ → ℝ × ℝ → EdgeData → WithTop ℝ))
    (a b : ℝ × ℝ) (ed : EdgeData) : Option (WithTop ℝ) :=
  owf.map fun wf => wf a b ed

/-! ## Concrete fixtures used by witnesses and counterexamples -/

/-- A trivial stand-in for the external `splitGeoJSON` library. -/
def splitUnit : List (ℚ × ℚ) → RouteProps → Unit := fun _ _ => ()

/-- An external engine returning a degenerate single-point path. -/
def fpDegenerate : ℚ × ℚ → ℚ × ℚ → Option PathResult :=
  fun _ _ => some ⟨[(0, 0)], 500⟩

/-- An external engine answering the repository's own antimeridian test
query (CAVAN → CNTXG) with the tested weight of `10 560 571` meters. -/
def fpAntimeridian : ℚ × ℚ → ℚ × ℚ → Option PathResult :=
  fun _ _ => some ⟨[], 10560571⟩

/-- A constant base weight function. -/
def wBase : ℝ × ℝ → ℝ × ℝ → ℝ := fun _ _ => 5

/-- A rules object with feature id `7` forbidden for class `"c"`. -/
def rulesSingleForbidden : List (String × ClassRule) := [("c", ⟨[7], []⟩)]

/-- A rules object with feature id `7` restricted (only) for `"c"`. -/
def rulesRestrictedOnly : List (String × ClassRule) := [("c", ⟨[], [7]⟩)]

/-- A configuration whose two passages give feature id `7` conflicting
statuses for class `"c"`: `p1` forbids it, `p2` restricts it. -/
def cfgConflict : MaritimeConfig :=
  { passages :=
      [("p1", { status := some [("c", "forbidden")], feature_ids := some [7] }),
       ("p2", { status := some [("c", "restricted")], feature_ids := some [7] })]
    default_policy := "allowed" }

/-- The effective status of `cfgConflict` for the single class `"c"`. -/
def effConflict : List (String × EffPassage) :=
  computeEffectiveStatusNoOverrides cfgConflict ["c"]

/-- The class rules collected from `effConflict`. -/
def rulesConflict : List (String × ClassRule) :=
  collectClassEdgeRules effConflict ["c"]

/-- A `neighbors` query that never returns a vertex. -/
def neighborsEmpty : ℚ → ℚ → ℕ → List ℕ := fun _ _ _ => []

/-- An empty network. -/
def emptyNetwork : FeatureCollection := ⟨[]⟩

/-- A single two-point `LineString` feature with no properties. -/
def segFeature : Feature :=
  { properties := fun _ => none
    geometry := ⟨"LineString", [.leaf 10 20, .leaf 30 40]⟩ }

/-- A network holding just `segFeature`. -/
def fcOneSegment : FeatureCollection := ⟨[segFeature]⟩

/-! ## Theorems -/

/-- C6: `normalizePair` leaves both latitudes untouched; when
`|lonA − lonB| ≤ 180` both points are returned unchanged; when
`|lonA − lonB| > 180` the longitude of the point with the smaller
longitude is increased by `360` and the other point is unchanged. -/
theorem normalizePair_spec (a b : ℚ × ℚ) :
    ((normalizePair a b).1.2 = a.2 ∧ (normalizePair a b).2.2 = b.2) ∧
    (¬|a.1 - b.1| > 180 → normalizePair a b = (a, b)) ∧
    (|a.1 - b.1| > 180 →
      (a.1 < b.1 → normalizePair a b = ((a.1 + 360, a.2), b)) ∧
      (b.1 < a.1 → normalizePair a b = (a, (b.1 + 360, b.2)))) := by
  by_cases h : |a.1 - b.1| > 180
  · by_cases h2 : a.1 < b.1
    · refine ⟨⟨?_, ?_⟩, fun hc => absurd h hc, fun _ => ⟨fun _ => ?_, fun h3 => absurd h2 (not_lt.mpr h3.le)⟩⟩ <;>
        simp [normalizePair, h, h2]
    · refine ⟨⟨?_, ?_⟩, fun hc => absurd h hc, fun _ => ⟨fun h3 => absurd h3 h2, fun _ => ?_⟩⟩ <;>
        simp [normalizePair, h, h2]
  · refine ⟨⟨?_, ?_⟩, fun _ => ?_, fun hc => absurd hc h⟩ <;> simp [normalizePair, h]

/-- C6 witness: an ordinary pair is unchanged, and an antimeridian
pair `(-170, 1)`/`(170, 2)` has its smaller longitude lifted to `190`
with both latitudes preserved. -/
theorem normalizePair_spec_witness :
    (¬|(10 : ℚ) - 20| > 180) ∧ normalizePair (10, 1) (20, 2) = ((10, 1), (20, 2)) ∧
    (|(-170 : ℚ) - 170| > 180) ∧ ((-170 : ℚ) < 170) ∧
    normalizePair (-170, 1) (170, 2) = ((190, 1), (170, 2)) :=
  ⟨by norm_num, (normalizePair_spec (10, 1) (20, 2)).2.1 (by norm_num), by norm_num,
    by norm_num, by
    have h := ((normalizePair_spec ((-170 : ℚ), 1) (170, 2)).2.2 (by norm_num)).1 (by norm_num)
    norm_num at h
    exact h⟩

/-- C4 (code bug): `unwrapPath` leaves the longitude `-190` unchanged
(the JS remainder keeps the dividend's sign), although the documented
formula `((lon + 180) mod 360) − 180` with a true modulo yields `170`,
and `-190` does not lie in `(-180, 180]`. -/
theorem unwrapPath_not_normalizing :
    unwrapPath [(-190, 0)] = [(-190, 0)] ∧
    (((-190 : ℚ) + 180) - 360 * ⌊(((-190 : ℚ) + 180)) / 360⌋) - 180 = 170 ∧
    ¬(-180 < (-190 : ℚ) ∧ (-190 : ℚ) ≤ 180) := by
  refine ⟨?_, by norm_num, by norm_num⟩
  have h : truncQ (((-190 : ℚ) + 180) / 360) = 0 := by
    rw [truncQ, if_neg (by norm_num)]
    norm_num
  simp only [unwrapPath, List.map, jsMod]
  rw [h]
  norm_num

/-- C10: when the engine finds a path but its unwrapped geometry has
fewer than two coordinates, `getShortestPath` with `path: true` returns
a Feature with `null` geometry carrying profile, weight, distance and
distanceNM; `null` itself is returned exactly when the engine finds no
path. -/
theorem getShortestPath_degenerate (σ : Type)
    (findPath : ℚ × ℚ → ℚ × ℚ → Option PathResult)
    (split : List (ℚ × ℚ) → RouteProps → σ) (profile : String) (s e : ℚ × ℚ)
    (res : PathResult)
    (hres : findPath (normalizePair s e).1 (normalizePair s e).2 = some res)
    (hshort : (unwrapPath res.path).length < 2) :
    getShortestPath findPath split true profile s e =
      .nullGeometry { profile := profile, weight := res.weight,
                      distance := res.weight / 1000,
                      distanceNM := distanceNMOf res.weight } ∧
    ∀ wantPath : Bool,
      (getShortestPath findPath split wantPath profile s e = .noPath ↔
        findPath (normalizePair s e).1 (normalizePair s e).2 = none) := by
  constructor
  · simp [getShortestPath, hres, formatPathGeometry, hshort]
  · intro wantPath
    refine iff_of_false ?_ (by simp [hres])
    cases wantPath with
    | false => simp [getShortestPath, hres]
    | true =>
      simp only [getShortestPath, hres, if_true]
      split <;> simp

/-- C10 witness: a concrete engine returning a one-point path makes
`getShortestPath` produce the null-geometry Feature with the computed
properties. -/
theorem getShortestPath_degenerate_witness :
    fpDegenerate (normalizePair (0, 0) (1, 1)).1 (normalizePair (0, 0) (1, 1)).2 =
      some ⟨[(0, 0)], 500⟩ ∧
    (unwrapPath [((0 : ℚ), (0 : ℚ))]).length < 2 ∧
    getShortestPath fpDegenerate splitUnit true "default" (0, 0) (1, 1) =
      .nullGeometry { profile := "default", weight := 500, distance := 500 / 1000,
                      distanceNM := distanceNMOf 500 } :=
  ⟨by decide, by decide,
    (getShortestPath_degenerate Unit fpDegenerate splitUnit "default" (0, 0) (1, 1)
      ⟨[(0, 0)], 500⟩ (by decide) (by decide)).1⟩

/-- C8 (code bug): on the repository's own antimeridian test query
(CAVAN → CNTXG, `path: false`), the returned MultiPoint carries the
intermediate longitude `236.8797`, which is outside `[−180, 180]`. -/
theorem getShortestPath_multiPoint_out_of_range :
    getShortestPath fpAntimeridian splitUnit false "default"
        (-1231203/10000, 492705/10000) (1177006/10000, 389847/10000) =
      .multiPoint [(2368797/10000, 492705/10000), (1177006/10000, 389847/10000)]
        { profile := "default", weight := 10560571, distance := 10560571 / 1000,
          distanceNM := distanceNMOf 10560571 } ∧
    ¬((2368797/10000 : ℚ) ≤ 180) := by
  constructor
  · have hAB : normalizePair (-1231203/10000, 492705/10000) (1177006/10000, 389847/10000) =
        ((2368797/10000, 492705/10000), (1177006/10000, 389847/10000)) := by
      norm_num [normalizePair, abs_of_nonpos, abs_of_nonneg]
    simp [getShortestPath, fpAntimeridian, hAB]
  · norm_num

/-- C1: any feature id in the class's forbidden set makes the weight
function return `+∞`, for every pair of coordinates. -/
theorem makeWeightFn_forbidden_infinite (rules : List (String × ClassRule))
    (clazz : String) (r : ClassRule) (m : ℝ) (w : ℝ × ℝ → ℝ × ℝ → ℝ)
    (a b : ℝ × ℝ) (f : ℤ) (hr : lookupAssoc rules clazz = some r)
    (hf : f ∈ r.forbidden) :
    applyWeight (makeWeightFn clazz rules m w) a b ⟨.num f⟩ = some ⊤ := by
  simp [applyWeight, makeWeightFn, hr, normalizeFid, hf]

/-- C1 witness: with feature id `7` forbidden for class `"c"`, the
weight of an edge tagged `fid: 7` is `+∞`. -/
theorem makeWeightFn_forbidden_infinite_witness :
    lookupAssoc rulesSingleForbidden "c" = some ⟨[7], []⟩ ∧
    (7 : ℤ) ∈ ([7] : List ℤ) ∧
    applyWeight (makeWeightFn "c" rulesSingleForbidden (5/4) wBase) (0, 0) (1, 1)
      ⟨.num 7⟩ = some ⊤ :=
  ⟨by decide, by decide,
    makeWeightFn_forbidden_infinite rulesSingleForbidden "c" ⟨[7], []⟩ (5/4) wBase
      (0, 0) (1, 1) 7 (by decide) (by decide)⟩

/-- C2 (amended): a feature id that is in the class's restricted set
and not in its forbidden set weighs `truncate(w(a,b)) × multiplier`;
an id in neither set, or an edge without a usable id, weighs
`truncate(w(a,b))`. -/
theorem makeWeightFn_restricted_spec (rules : List (String × ClassRule))
    (clazz : String) (r : ClassRule) (m : ℝ) (w : ℝ × ℝ → ℝ × ℝ → ℝ)
    (a b : ℝ × ℝ) (hr : lookupAssoc rules clazz = some r) :
    (∀ f : ℤ, f ∈ r.restricted → f ∉ r.forbidden →
      applyWeight (makeWeightFn clazz rules m w) a b ⟨.num f⟩ =
        some ((truncR (w a b) * m : ℝ) : WithTop ℝ)) ∧
    (∀ f : ℤ, f ∉ r.forbidden → f ∉ r.restricted →
      applyWeight (makeWeightFn clazz rules m w) a b ⟨.num f⟩ =
        some ((truncR (w a b) : ℝ) : WithTop ℝ)) ∧
    (∀ v : FidVal, normalizeFid v = none →
      applyWeight (makeWeightFn clazz rules m w) a b ⟨v⟩ =
        some ((truncR (w a b) : ℝ) : WithTop ℝ)) := by
  refine ⟨?_, ?_, ?_⟩
  · intro f hfr hff
    simp [applyWeight, makeWeightFn, hr, normalizeFid, hff, hfr]
  · intro f hff hfr
    simp [applyWeight, makeWeightFn, hr, normalizeFid, hff, hfr]
  · intro v hv
    simp [applyWeight, makeWeightFn, hr, hv]

/-- C2 witness: with id `7` restricted (and not forbidden) for class
`"c"`, the weight of an edge tagged `fid: 7` is the truncated base
times the multiplier. -/
theorem makeWeightFn_restricted_spec_witness :
    lookupAssoc rulesRestrictedOnly "c" = some ⟨[], [7]⟩ ∧
    ((7 : ℤ) ∈ ([7] : List ℤ) ∧ (7 : ℤ) ∉ ([] : List ℤ)) ∧
    applyWeight (makeWeightFn "c" rulesRestrictedOnly (5/4) wBase) (0, 0) (1, 1)
      ⟨.num 7⟩ = some ((truncR (wBase (0, 0) (1, 1)) * (5/4) : ℝ) : WithTop ℝ) :=
  ⟨by decide, ⟨by decide, by decide⟩,
    (makeWeightFn_restricted_spec rulesRestrictedOnly "c" ⟨[], [7]⟩ (5/4) wBase
      (0, 0) (1, 1) (by decide)).1 7 (by decide) (by decide)⟩

/-- C2 counterexample: in `rulesConflict` (built by the real pipeline
from `cfgConflict`) the id `7` is in the restricted set of class `"c"`,
yet the produced weight function returns `+∞` for it — not the
truncated base times the multiplier — because `7` is also in the
forbidden set, which is checked first. -/
theorem makeWeightFn_restricted_claim_false :
    lookupAssoc rulesConflict "c" = some ⟨[7], [7]⟩ ∧
    (7 : ℤ) ∈ ([7] : List ℤ) ∧
    applyWeight (makeWeightFn "c" rulesConflict (5/4) wBase) (0, 0) (1, 1)
      ⟨.num 7⟩ = some ⊤ ∧
    some (⊤ : WithTop ℝ) ≠
      some ((truncR (wBase (0, 0) (1, 1)) * (5/4) : ℝ) : WithTop ℝ) := by
  have hl : lookupAssoc rulesConflict "c" = some ⟨[7], [7]⟩ := by decide
  refine ⟨hl, by decide, ?_, ?_⟩
  · simp [applyWeight, makeWeightFn, hl, normalizeFid]
  · intro h
    exact WithTop.coe_ne_top (Option.some.inj h).symm

/-- Membership after a JS-style `Set.add`. -/
theorem mem_setAdd (x i : ℤ) (s : List ℤ) : x ∈ setAdd s i ↔ x ∈ s ∨ x = i := by
  by_cases h : i ∈ s
  · simp only [setAdd, if_pos h]
    constructor
    · exact Or.inl
    · rintro (hx | rfl)
      · exact hx
      · exact h
  · simp [setAdd, if_neg h]

/-- Membership after adding a whole feature-id list. -/
theorem mem_addIds (x : ℤ) : ∀ (ids s : List ℤ), x ∈ addIds s ids ↔ x ∈ s ∨ x ∈ ids := by
  intro ids
  induction ids with
  | nil => intro s; simp [addIds]
  | cons i t ih =>
    intro s
    rw [show addIds s (i :: t) = addIds (setAdd s i) t from rfl, ih, mem_setAdd]
    simp [List.mem_cons]
    tauto

/-- Effect of one passage on a class's forbidden set. -/
theorem applyPassage_forbidden (clazz : String) (r : ClassRule) (pe : EffPassage) (x : ℤ) :
    x ∈ (applyPassage clazz r pe).forbidden ↔
      x ∈ r.forbidden ∨
        (x ∈ pe.feature_ids ∧ lookupAssoc pe.status clazz = some "forbidden") := by
  by_cases hlen : pe.feature_ids.length = 0
  · have hnil : pe.feature_ids = [] := List.length_eq_zero.mp hlen
    simp [applyPassage, hlen, hnil]
  · cases h : lookupAssoc pe.status clazz with
    | none => simp [applyPassage, hlen, h]
    | some s =>
      by_cases hf : s = "forbidden"
      · subst hf
        simp [applyPassage, hlen, h, mem_addIds]
      · by_cases hrs : s = "restricted"
        · subst hrs
          have hne : ("restricted" : String) ≠ "forbidden" := by decide
          simp [applyPassage, hlen, h, hne]
        · simp [applyPassage, hlen, h, hf, hrs]

/-- Effect of one passage on a class's restricted set. -/
theorem applyPassage_restricted (clazz : String) (r : ClassRule) (pe : EffPassage) (x : ℤ) :
    x ∈ (applyPassage clazz r pe).restricted ↔
      x ∈ r.restricted ∨
        (x ∈ pe.feature_ids ∧ lookupAssoc pe.status clazz = some "restricted") := by
  by_cases hlen : pe.feature_ids.length = 0
  · have hnil : pe.feature_ids = [] := List.length_eq_zero.mp hlen
    simp [applyPassage, hlen, hnil]
  · cases h : lookupAssoc pe.status clazz with
    | none => simp [applyPassage, hlen, h]
    | some s =>
      by_cases hf : s = "forbidden"
      · subst hf
        have hne : ("forbidden" : String) ≠ "restricted" := by decide
        simp [applyPassage, hlen, h, hne]
      · by_cases hrs : s = "restricted"
        · subst hrs
          simp [applyPassage, hlen, h, mem_addIds]
        · simp [applyPassage, hlen, h, hf, hrs]

/-- Membership in the fold over passages, forbidden side. -/
theorem foldPassages_forbidden (clazz : String) (x : ℤ) :
    ∀ (eff : List (String × EffPassage)) (acc : ClassRule),
      (x ∈ (eff.foldl (fun r pe => applyPassage clazz r pe.2) acc).forbidden ↔
        x ∈ acc.forbidden ∨
          ∃ pe ∈ eff, x ∈ pe.2.feature_ids ∧
            lookupAssoc pe.2.status clazz = some "forbidden") := by
  intro eff
  induction eff with
  | nil => intro acc; simp
  | cons p t ih =>
    intro acc
    rw [List.foldl_cons, ih, applyPassage_forbidden]
    simp [List.mem_cons]
    tauto

/-- Membership in the fold over passages, restricted side. -/
theorem foldPassages_restricted (clazz : String) (x : ℤ) :
    ∀ (eff : List (String × EffPassage)) (acc : ClassRule),
      (x ∈ (eff.foldl (fun r pe => applyPassage clazz r pe.2) acc).restricted ↔
        x ∈ acc.restricted ∨
          ∃ pe ∈ eff, x ∈ pe.2.feature_ids ∧
            lookupAssoc pe.2.status clazz = some "restricted") := by
  intro eff
  induction eff with
  | nil => intro acc; simp
  | cons p t ih =>
    intro acc
    rw [List.foldl_cons, ih, applyPassage_restricted]
    simp [List.mem_cons]
    tauto

/-- A lookup in a map built with one entry per key returns the value
built for the key looked up. -/
theorem lookupAssoc_map_self {β : Type} (g : String → β) :
    ∀ (classes : List String) (clazz : String) (r : β),
      lookupAssoc (classes.map fun c => (c, g c)) clazz = some r → r = g clazz := by
  intro classes
  induction classes with
  | nil => intro clazz r h; simp [lookupAssoc] at h
  | cons c t ih =>
    intro clazz r h
    by_cases hc : c = clazz
    · subst hc
      rw [lookupAssoc, List.map_cons, List.find?_cons_of_pos _ (by simp)] at h
      simpa using h.symm
    · rw [lookupAssoc, List.map_cons, List.find?_cons_of_neg _ (by simp [hc])] at h
      exact ih clazz r h

/-- C3 (amended): `collectClassEdgeRules` accumulates by union and
nothing is overwritten — a feature id is in a class's forbidden
(resp. restricted) set iff some passage listing that id has effective
status `forbidden` (resp. `restricted`) for the class; an id listed
under passages with conflicting statuses is therefore in both sets. -/
theorem collectClassEdgeRules_union (eff : List (String × EffPassage))
    (classes : List String) (clazz : String) (r : ClassRule)
    (hr : lookupAssoc (collectClassEdgeRules eff classes) clazz = some r) (fid : ℤ) :
    (fid ∈ r.forbidden ↔
      ∃ pe ∈ eff, fid ∈ pe.2.feature_ids ∧
        lookupAssoc pe.2.status clazz = some "forbidden") ∧
    (fid ∈ r.restricted ↔
      ∃ pe ∈ eff, fid ∈ pe.2.feature_ids ∧
        lookupAssoc pe.2.status clazz = some "restricted") := by
  have hrc : r = classRuleFor eff clazz :=
    lookupAssoc_map_self (classRuleFor eff) classes clazz r hr
  subst hrc
  rw [classRuleFor]
  constructor
  · rw [foldPassages_forbidden]
    simp
  · rw [foldPassages_restricted]
    simp

/-- C3 witness: the characterization applied to the conflicting
configuration — id `7` is in the forbidden set of `"c"` because
passage `p1` forbids it. -/
theorem collectClassEdgeRules_union_witness :
    lookupAssoc (collectClassEdgeRules effConflict ["c"]) "c" = some ⟨[7], [7]⟩ ∧
    ((7 : ℤ) ∈ (⟨[7], [7]⟩ : ClassRule).forbidden ↔
      ∃ pe ∈ effConflict, (7 : ℤ) ∈ pe.2.feature_ids ∧
        lookupAssoc pe.2.status "c" = some "forbidden") :=
  ⟨by decide,
    (collectClassEdgeRules_union effConflict ["c"] "c" ⟨[7], [7]⟩ (by decide) 7).1⟩

/-- C3 counterexample: with `cfgConflict`, feature id `7` lands in
both the forbidden and the restricted set of class `"c"` — the sets
are not disjoint and no later passage overwrites an earlier one. -/
theorem collectClassEdgeRules_overlap :
    lookupAssoc (collectClassEdgeRules effConflict ["c"]) "c" =
      some (classRuleFor effConflict "c") ∧
    (7 : ℤ) ∈ (classRuleFor effConflict "c").forbidden ∧
    (7 : ℤ) ∈ (classRuleFor effConflict "c").restricted := by
  refine ⟨by decide, by decide, by decide⟩

/-- Length of the triplicated feature list. -/
theorem tripleFeatures_length : ∀ fs : List Feature,
    (tripleFeatures fs).length = 3 * fs.length := by
  intro fs
  induction fs with
  | nil => rfl
  | cons f t ih => simp [tripleFeatures, shifts, ih]; omega

/-- The copy of feature `i` at shift `j` sits at index `3*i + j`. -/
theorem tripleFeatures_getElem : ∀ (fs : List Feature) (i j : ℕ) (f : Feature) (dx : ℚ),
    fs[i]? = some f → shifts[j]? = some dx →
    (tripleFeatures fs)[3 * i + j]? = some (tripleFeature f dx) := by
  intro fs
  induction fs with
  | nil => intro i j f dx hi _; simp at hi
  | cons g t ih =>
    intro i j f dx hi hj
    have hj3 : j < 3 := by
      have h := (List.getElem?_eq_some.mp hj).1
      simpa [shifts] using h
    cases i with
    | zero =>
      have hf : g = f := by simpa using hi
      subst hf
      have hz : 3 * 0 + j = j := by omega
      simp only [tripleFeatures, hz]
      rw [List.getElem?_append, if_pos (by simpa [shifts] using hj3), List.getElem?_map, hj]
      rfl
    | succ k =>
      have hi' : t[k]? = some f := by simpa using hi
      have harith : 3 * (k + 1) + j = (shifts.map (tripleFeature g)).length + (3 * k + j) := by
        simp [shifts]; omega
      simp only [tripleFeatures]
      rw [harith, List.getElem?_append_right (Nat.le_add_right _ _)]
      simpa using ih k j f dx hi' hj

/-- Pairing of the shift and leaf-collection recursions, by strong
induction on size: shifting adds `dx` to the longitude of every leaf
and keeps every latitude, at every nesting depth. -/
theorem shiftLeaves_aux (dx : ℚ) :
    ∀ n : ℕ,
      (∀ t : CoordTree, sizeOf t ≤ n →
        leavesOf (shiftTree dx t) = (leavesOf t).map (fun c => (c.1 + dx, c.2))) ∧
      (∀ ts : List CoordTree, sizeOf ts ≤ n →
        leavesList (shiftTreeList dx ts) = (leavesList ts).map (fun c => (c.1 + dx, c.2))) := by
  intro n
  induction n with
  | zero =>
    constructor
    · intro t ht; exact absurd ht (by cases t <;> simp)
    · intro ts hts; exact absurd hts (by cases ts <;> simp)
  | succ n ih =>
    constructor
    · intro t ht
      cases t with
      | leaf lon lat => simp [shiftTree, leavesOf]
      | node cs =>
        have hcs : sizeOf cs ≤ n := by simp at ht; omega
        simp only [shiftTree, leavesOf]
        exact ih.2 cs hcs
    · intro ts hts
      cases ts with
      | nil => simp [shiftTreeList, leavesList]
      | cons c cs =>
        have h1 : sizeOf c ≤ n := by simp at hts; omega
        have h2 : sizeOf cs ≤ n := by simp at hts; omega
        simp only [shiftTreeList, leavesList, List.map_append]
        rw [ih.1 c h1, ih.2 cs h2]

/-- Shifting a coordinate array shifts exactly its leaves. -/
theorem shiftTreeList_leaves (dx : ℚ) (ts : List CoordTree) :
    leavesList (shiftTreeList dx ts) = (leavesList ts).map (fun c => (c.1 + dx, c.2)) :=
  (shiftLeaves_aux dx (sizeOf ts)).2 ts le_rfl

/-- C5: `triplicateGeoJSON` returns exactly three times the original
feature count; the copy of original feature `i` for the `j`-th shift
sits at index `3*i + j` and is that feature tagged `__wrapShift = dx`
with `dx` added to the longitude of every coordinate of its geometry
at every nesting depth, all latitudes unchanged. -/
theorem triplicateGeoJSON_spec (fc : FeatureCollection) (i j : ℕ) (f : Feature) (dx : ℚ)
    (hi : fc.features[i]? = some f) (hj : shifts[j]? = some dx) :
    (triplicateGeoJSON fc).features.length = 3 * fc.features.length ∧
    (triplicateGeoJSON fc).features[3 * i + j]? = some (tripleFeature f dx) ∧
    (tripleFeature f dx).properties "__wrapShift" = some dx ∧
    ∀ (g : Geometry) (d : ℚ), (shiftGeometry g d).gtype = g.gtype ∧
      leavesList (shiftGeometry g d).coordinates =
        (leavesList g.coordinates).map (fun c => (c.1 + d, c.2)) := by
  refine ⟨tripleFeatures_length fc.features,
    tripleFeatures_getElem fc.features i j f dx hi hj, ?_, ?_⟩
  · simp [tripleFeature, tagShift]
  · intro g d
    exact ⟨rfl, shiftTreeList_leaves d g.coordinates⟩

/-- C5 witness: the single-segment network, its only feature, and the
`+360` shift. -/
theorem triplicateGeoJSON_spec_witness :
    fcOneSegment.features[0]? = some segFeature ∧ shifts[2]? = some 360 ∧
    ((triplicateGeoJSON fcOneSegment).features.length = 3 * fcOneSegment.features.length ∧
      (triplicateGeoJSON fcOneSegment).features[3 * 0 + 2]? =
        some (tripleFeature segFeature 360) ∧
      (tripleFeature segFeature 360).properties "__wrapShift" = some 360 ∧
      ∀ (g : Geometry) (d : ℚ), (shiftGeometry g d).gtype = g.gtype ∧
        leavesList (shiftGeometry g d).coordinates =
          (leavesList g.coordinates).map (fun c => (c.1 + d, c.2))) :=
  ⟨rfl, rfl, triplicateGeoJSON_spec fcOneSegment 0 2 segFeature 360 rfl rfl⟩

/-- C7 counterexample: a `CoordinateLookup` built over the empty
network throws on a well-formed query point — it does not return
`null`. -/
theorem snapToNearestVertex_empty_throws :
    snapToNearestVertex (buildIndex emptyNetwork) neighborsEmpty (.arr [1, 2]) =
      .error emptyIndexMsg ∧
    snapToNearestVertex (buildIndex emptyNetwork) neighborsEmpty (.arr [1, 2]) ≠
      .ok none := by
  have h : snapToNearestVertex (buildIndex emptyNetwork) neighborsEmpty (.arr [1, 2]) =
      .error emptyIndexMsg := rfl
  exact ⟨h, by rw [h]; exact fun hc => Except.noConfusion hc⟩

/-- C7 (amended): `snapToNearestVertex` returns `null` when the input
coordinates cannot be extracted (this check comes first, so it applies
even over an empty network); it throws the empty-network error when
the vertex list is absent or empty; with a nonempty vertex list it
never fails, returning an `ok` result decided by the external
neighbor query. -/
theorem snapToNearestVertex_spec (vs : Option (List (ℚ × ℚ)))
    (nb : ℚ → ℚ → ℕ → List ℕ) (inp : PointInput) :
    (extractCoordinates inp = none → snapToNearestVertex ⟨vs⟩ nb inp = .ok none) ∧
    (∀ lon lat, extractCoordinates inp = some (lon, lat) → (vs.getD []).length = 0 →
      snapToNearestVertex ⟨vs⟩ nb inp = .error emptyIndexMsg) ∧
    (∀ lon lat l, extractCoordinates inp = some (lon, lat) → vs = some l →
      l.length ≠ 0 → ∃ r, snapToNearestVertex ⟨vs⟩ nb inp = .ok r) := by
  refine ⟨?_, ?_, ?_⟩
  · intro h
    simp [snapToNearestVertex, h]
  · intro lon lat h hlen
    cases vs with
    | none => simp [snapToNearestVertex, h]
    | some l =>
      have hl : l.length = 0 := by simpa using hlen
      simp [snapToNearestVertex, h, hl]
  · intro lon lat l h hvs hlen
    subst hvs
    simp only [snapToNearestVertex, h]
    rw [if_neg hlen]
    cases hnb : nb lon lat 1 with
    | nil => exact ⟨none, rfl⟩
    | cons id rest => exact ⟨getVertex (some l) id, rfl⟩

/-- C7 witness: a malformed point snaps to `null` even on the empty
network, and a well-formed point against an empty vertex list hits the
error branch. -/
theorem snapToNearestVertex_spec_witness :
    extractCoordinates .nullish = none ∧
    snapToNearestVertex (buildIndex emptyNetwork) neighborsEmpty .nullish = .ok none ∧
    extractCoordinates (.arr [1, 2]) = some (1, 2) ∧
    ((some ([] : List (ℚ × ℚ))).getD []).length = 0 ∧
    snapToNearestVertex ⟨some []⟩ neighborsEmpty (.arr [1, 2]) = .error emptyIndexMsg :=
  ⟨rfl,
    (snapToNearestVertex_spec (some (coordAll emptyNetwork)) neighborsEmpty .nullish).1 rfl,
    rfl, rfl,
    (snapToNearestVertex_spec (some []) neighborsEmpty (.arr [1, 2])).2.1 1 2 rfl rfl⟩

/-- The haversine intermediate is symmetric in its arguments. -/
theorem haversineS_comm (a b : ℝ × ℝ) : haversineS a b = haversineS b a := by
  have key : ∀ x y : ℝ,
      Real.sin ((x - y) * DEG_TO_RAD * 0.5) * Real.sin ((x - y) * DEG_TO_RAD * 0.5) =
        Real.sin ((y - x) * DEG_TO_RAD * 0.5) * Real.sin ((y - x) * DEG_TO_RAD * 0.5) := by
    intro x y
    have h : (x - y) * DEG_TO_RAD * 0.5 = -((y - x) * DEG_TO_RAD * 0.5) := by ring
    rw [h, Real.sin_neg]
    ring
  unfold haversineS
  rw [key b.2 a.2, key b.1 a.1]
  ring

/-- The haversine intermediate vanishes on a repeated point. -/
theorem haversineS_self (a : ℝ × ℝ) : haversineS a a = 0 := by
  unfold haversineS
  simp

/-- C9 (amended): the haversine distance is symmetric, non-negative,
and zero on identical points (the converse fails, see the
counterexample). -/
theorem haversine_metric_props (a b : ℝ × ℝ) :
    haversine a b = haversine b a ∧ 0 ≤ haversine a b ∧ haversine a a = 0 := by
  refine ⟨?_, ?_, ?_⟩
  · unfold haversine
    rw [haversineS_comm]
  · have h1 : 0 ≤ Real.arcsin (Real.sqrt (haversineS a b)) :=
      Real.arcsin_nonneg.mpr (Real.sqrt_nonneg _)
    have h2 : (0 : ℝ) ≤ 2 * R_EARTH := by norm_num [R_EARTH]
    exact mul_nonneg h2 h1
  · unfold haversine
    rw [haversineS_self, Real.sqrt_zero, Real.arcsin_zero, mul_zero]

/-- C9 counterexample: two distinct points on the north pole circle
(`lat = 90`, longitudes `0` and `10`) are at haversine distance `0`,
refuting `distance(a,b) = 0 → a = b`. -/
theorem haversine_zero_at_pole :
    haversine (0, 90) (10, 90) = 0 ∧ ((0 : ℝ), (90 : ℝ)) ≠ ((10 : ℝ), (90 : ℝ)) := by
  constructor
  · have h90 : (90 : ℝ) * DEG_TO_RAD = Real.pi / 2 := by
      rw [DEG_TO_RAD]; ring
    have hs : haversineS (0, 90) (10, 90) = 0 := by
      unfold haversineS
      simp [h90, Real.cos_pi_div_two]
    unfold haversine
    rw [hs, Real.sqrt_zero, Real.arcsin_zero, mul_zero]
  · intro h
    norm_num [Prod.mk.injEq] at h
